import Mathlib

/-!
Shallow embedding of the SoDot task-management core: the JSON storage
engine, the task repository and the task service
(`app/storage/engine.py`, `app/storage/repository.py`,
`app/services/tasks.py`), together with the pydantic task models.

The persisted collection is a JSON object mapping task ids to record
objects; we model it as an insertion-ordered association list, mirroring
Python dict semantics (assignment replaces in place, otherwise appends;
`del` removes the entry; iteration follows insertion order).

Calendar dates and timestamps are modelled as plain numeric structures;
their ISO-string wire form (produced by `model_dump(mode='json')` and
parsed back by pydantic) is an injective stdlib encoding which we
abstract by storing the value itself in the JSON-object model.

Nondeterministic environment inputs (`uuid.uuid4()`, `datetime.now()`)
are passed as explicit parameters.
-/

namespace SoDot

/-- Model of `datetime.date`: a calendar date with no time component. -/
structure PyDate where
  year : Nat
  month : Nat
  day : Nat
deriving DecidableEq

/-- Model of `datetime.datetime`: a timestamp. -/
structure PyDateTime where
  year : Nat
  month : Nat
  day : Nat
  hour : Nat
  minute : Nat
  second : Nat
deriving DecidableEq

/-- Modelled from the spec: `app.models.TaskRecord` is imported by the
repository, the service, the routers and the tests but its definition is
absent from the tree (`app/models.py` holds an older `TodoItem*`
revision).  Per the spec's output-record shape it carries id, title,
nullable description, nullable due date, completion flag and creation
timestamp. -/
structure TaskRecord where
  id : String
  title : String
  description : Option String
  dueDate : Option PyDate
  isCompleted : Bool
  createdAt : PyDateTime
deriving DecidableEq

/-- Modelled from the spec: `app.models.TaskCreate` (definition absent
from the tree, see `TaskRecord`).  Creation input: title plus the
optional user fields; `createdAt` and `id` are system-assigned later. -/
structure TaskCreate where
  title : String
  description : Option String
  dueDate : Option PyDate
  isCompleted : Bool
deriving DecidableEq

/-- Modelled from the spec: `app.models.TaskUpdate` (definition absent
from the tree, see `TaskRecord`).  A partial update distinguishes, per
field, "key absent" from "key present"; for the nullable fields
(`description`, `dueDate`) a present key may carry null, so those get a
tri-state absent / null / value.  The outer `Option` is "explicitly set"
(what pydantic's `model_dump(exclude_unset=True)` reports). -/
structure TaskUpdate where
  title? : Option String
  description? : Option (Option String)
  dueDate? : Option (Option PyDate)
  isCompleted? : Option Bool
deriving DecidableEq

/-- One stored JSON object of the persisted collection: each record
field is either absent (`none`) or present; the nullable fields carry a
second `Option` layer for an explicit JSON null. -/
structure StoredDoc where
  id? : Option String
  title? : Option String
  description? : Option (Option String)
  dueDate? : Option (Option PyDate)
  isCompleted? : Option Bool
  createdAt? : Option PyDateTime
deriving DecidableEq

/-- The stored JSON object with no keys, i.e. `{}` — the only falsy dict
in Python. -/
def StoredDoc.emptyDoc : StoredDoc :=
  ⟨none, none, none, none, none, none⟩

/-- Python truthiness of a dict: `{}` is falsy, every other dict truthy.
Used by `get_by_id`'s `if item` check. -/
def StoredDoc.isEmpty (d : StoredDoc) : Bool :=
  d.id?.isNone && d.title?.isNone && d.description?.isNone &&
    d.dueDate?.isNone && d.isCompleted?.isNone && d.createdAt?.isNone

/-- Decoding failure: a required field of `TaskRecord` is missing from a
stored object (pydantic raises `ValidationError` from
`TaskRecord(**item)`). -/
inductive DecodeErr where
  | missingField (fieldName : String)
deriving DecidableEq

/-- Model of `TaskRecord(**item)`: pydantic validation of a stored
object.  `id`, `title` and `createdAt` are required; `description` and
`dueDate` default to null; `isCompleted` defaults to false (the tests
construct `TaskRecord` without it). -/
def decodeDoc (d : StoredDoc) : Except DecodeErr TaskRecord :=
  match d.id? with
  | none => .error (.missingField "id")
  | some i =>
    match d.title? with
    | none => .error (.missingField "title")
    | some t =>
      match d.createdAt? with
      | none => .error (.missingField "createdAt")
      | some c =>
        .ok { id := i
              title := t
              description := d.description?.getD none
              dueDate := d.dueDate?.getD none
              isCompleted := d.isCompleted?.getD false
              createdAt := c }

/-- Model of `record.model_dump(mode='json')`: every field is emitted,
nullable fields as explicit nulls when unset. -/
def encodeDoc (r : TaskRecord) : StoredDoc :=
  { id? := some r.id
    title? := some r.title
    description? := some r.description
    dueDate? := some r.dueDate
    isCompleted? := some r.isCompleted
    createdAt? := some r.createdAt }

/-- The persisted collection: insertion-ordered mapping from task id to
stored JSON object (one Python dict serialized as one JSON document). -/
abbrev Coll := List (String × StoredDoc)

/-- Dict lookup `data.get(key)`. -/
def lookupC : Coll → String → Option StoredDoc
  | [], _ => none
  | (k, v) :: t, key => if k == key then some v else lookupC t key

/-- Dict membership `key in data`. -/
def hasKey : Coll → String → Bool
  | [], _ => false
  | (k, _) :: t, key => k == key || hasKey t key

/-- Replace the entry under `key` in place, keeping its position. -/
def replaceEntry : Coll → String → StoredDoc → Coll
  | [], _, _ => []
  | (k, w) :: t, key, v =>
      if k == key then (k, v) :: replaceEntry t key v
      else (k, w) :: replaceEntry t key v

/-- Dict assignment `data[key] = v`: replace in place when the key is
present, otherwise append at the end (insertion order). -/
def setEntry (s : Coll) (key : String) (v : StoredDoc) : Coll :=
  if hasKey s key then replaceEntry s key v else s ++ [(key, v)]

/-- Dict deletion `del data[key]`. -/
def eraseEntry : Coll → String → Coll
  | [], _ => []
  | (k, w) :: t, key =>
      if k == key then eraseEntry t key else (k, w) :: eraseEntry t key

/-- Result of a repository operation that may persist: the returned
value, the resulting persisted collection, and whether
`engine.write` was invoked. -/
structure WriteResult (α : Type) where
  ret : α
  st : Coll
  wrote : Bool
deriving DecidableEq

/-- Model of `model_copy(update=task_update.model_dump(exclude_unset=True))`:
only the fields explicitly set in the update are overwritten; `id` and
`createdAt` are not updatable fields and are always kept. -/
def TaskRecord.applyUpdate (r : TaskRecord) (u : TaskUpdate) : TaskRecord :=
  { r with
    title := u.title?.getD r.title
    description := u.description?.getD r.description
    dueDate := u.dueDate?.getD r.dueDate
    isCompleted := u.isCompleted?.getD r.isCompleted }

/-- `TaskRepository.get_all`: decode every stored value, in collection
order; a pydantic failure on any entry propagates. -/
def TaskRepository.get_all (s : Coll) : Except DecodeErr (List TaskRecord) :=
  s.mapM (fun p => decodeDoc p.2)

/-- `TaskRepository.get_by_id`: `item = data.get(task_id)`, then
`TaskRecord(**item) if item else None` — note the Python truthiness
check, under which an empty stored object is reported as absent. -/
def TaskRepository.get_by_id (s : Coll) (taskId : String) :
    Except DecodeErr (Option TaskRecord) :=
  match lookupC s taskId with
  | none => .ok none
  | some d => if d.isEmpty then .ok none else (decodeDoc d).map some

/-- `TaskRepository.create`: build the record from the input plus the
system-generated id and timestamp (passed here as parameters standing
for `uuid.uuid4()` and `datetime.now()`), store its JSON dump under the
new id, write, return the record. -/
def TaskRepository.create (s : Coll) (newId : String) (ts : PyDateTime)
    (tc : TaskCreate) : WriteResult TaskRecord :=
  let r : TaskRecord :=
    { id := newId
      title := tc.title
      description := tc.description
      dueDate := tc.dueDate
      isCompleted := tc.isCompleted
      createdAt := ts }
  ⟨r, setEntry s newId (encodeDoc r), true⟩

/-- `TaskRepository.update`: return `none` without writing when the id
is not a key; otherwise decode the existing record (a pydantic failure
propagates before any write), merge only the explicitly set fields,
store the merged record's JSON dump, write, return the merged record. -/
def TaskRepository.update (s : Coll) (taskId : String) (u : TaskUpdate) :
    Except DecodeErr (WriteResult (Option TaskRecord)) :=
  match lookupC s taskId with
  | none => .ok ⟨none, s, false⟩
  | some d =>
    match decodeDoc d with
    | .error e => .error e
    | .ok r =>
      let m := r.applyUpdate u
      .ok ⟨some m, setEntry s taskId (encodeDoc m), true⟩

/-- `TaskRepository.delete`: remove the entry and write when the id is a
key, returning true; otherwise return false without writing. -/
def TaskRepository.delete (s : Coll) (taskId : String) : WriteResult Bool :=
  if hasKey s taskId then ⟨true, eraseEntry s taskId, true⟩
  else ⟨false, s, false⟩

/-- Modelled from the spec: `TaskRepository.save` is called by
`TaskService.create_task` and mocked in the service tests, but absent
from the tree's `repository.py`.  Per the spec it writes the record
keyed by its id into the collection (fully overwriting an existing
entry), persists, and returns the stored record. -/
def TaskRepository.save (s : Coll) (r : TaskRecord) : WriteResult TaskRecord :=
  ⟨r, setEntry s r.id (encodeDoc r), true⟩

/-- `TaskService.create_task`: mint an id and a timestamp (parameters
standing for `uuid.uuid4()` and `datetime.now()`), build the full record
from the input plus these system fields, persist via the repository's
`save`, return it. -/
def TaskService.create_task (s : Coll) (newId : String) (ts : PyDateTime)
    (tc : TaskCreate) : WriteResult TaskRecord :=
  TaskRepository.save s
    { id := newId
      title := tc.title
      description := tc.description
      dueDate := tc.dueDate
      isCompleted := tc.isCompleted
      createdAt := ts }

/-- Model of Python's `str.strip()`: drop whitespace characters from
both ends.  (Defined over the character list so that it is computable by
the kernel.) -/
def pyStrip (s : String) : String :=
  ⟨((s.data.dropWhile Char.isWhitespace).reverse.dropWhile
      Char.isWhitespace).reverse⟩

/-- Modelled from the spec: title constraint — non-empty, 1 to 100
characters after trimming surrounding whitespace.  Enforced by the
pydantic `TaskCreate` / `TaskUpdate` field validators, which are absent
from the tree; the router tests assert exactly this behavior (422 on
empty or over-100-character titles, automatic stripping). -/
def validTitle (t : String) : Bool :=
  1 ≤ (pyStrip t).length && (pyStrip t).length ≤ 100

/-- Modelled from the spec: description constraint — at most 500
characters after trimming, null allowed. -/
def validDescription : Option String → Bool
  | none => true
  | some s => (pyStrip s).length ≤ 500

/-- Modelled from the spec: pydantic construction of `TaskCreate` from
raw input — validation happens at model construction, before the value
can reach the service or repository; whitespace is stripped. -/
def mkTaskCreate (title : String) (description : Option String)
    (dueDate : Option PyDate) (isCompleted : Bool) : Option TaskCreate :=
  if validTitle title && validDescription description then
    some ⟨pyStrip title, description.map pyStrip, dueDate, isCompleted⟩
  else none

/-- Modelled from the spec: pydantic construction of `TaskUpdate` from
raw tri-state input — a field left out stays unset; a provided title or
description is validated and stripped exactly as at creation. -/
def mkTaskUpdate (title? : Option String)
    (description? : Option (Option String))
    (dueDate? : Option (Option PyDate)) (isCompleted? : Option Bool) :
    Option TaskUpdate :=
  match title? with
  | some t =>
    if validTitle t then
      match description? with
      | some d =>
        if validDescription d then
          some ⟨some (pyStrip t), some (d.map pyStrip), dueDate?, isCompleted?⟩
        else none
      | none => some ⟨some (pyStrip t), none, dueDate?, isCompleted?⟩
    else none
  | none =>
    match description? with
    | some d =>
      if validDescription d then
        some ⟨none, some (d.map pyStrip), dueDate?, isCompleted?⟩
      else none
    | none => some ⟨none, none, dueDate?, isCompleted?⟩

/-- The partial update whose only explicitly set field is `description`,
set to null — `TaskUpdate(description=None)` passed explicitly. -/
def clearDescription : TaskUpdate := ⟨none, some none, none, none⟩

/-- The partial update with no field explicitly set —
`TaskUpdate()`. -/
def noFields : TaskUpdate := ⟨none, none, none, none⟩

/-- Collection invariant: every key of the persisted mapping equals the
`id` field of the stored object under it. -/
def KeyIdInv (s : Coll) : Prop :=
  ∀ p ∈ s, p.2.id? = some p.1

/-- One in-flight `TaskRepository.create` call: its minted id and
timestamp and its input. -/
structure CreateTxn where
  newId : String
  ts : PyDateTime
  tc : TaskCreate
deriving DecidableEq

/-- The record a create call builds. -/
def CreateTxn.record (t : CreateTxn) : TaskRecord :=
  { id := t.newId
    title := t.tc.title
    description := t.tc.description
    dueDate := t.tc.dueDate
    isCompleted := t.tc.isCompleted
    createdAt := t.ts }

/-- Progress of one create call through its two engine-atomic steps: the
engine's lock is held separately for `read()` and for `write(data)`, so
a create is the two steps "read a snapshot" then "write the snapshot
plus the new entry", and steps of distinct calls may interleave. -/
inductive TxnPhase where
  | start
  | readDone (snap : Coll)
  | done (ret : TaskRecord)
deriving DecidableEq

/-- One engine-atomic step of a create call: `start` performs the locked
`engine.read()` (snapshotting the current collection); `readDone`
performs the locked `engine.write` of the snapshot extended with the new
entry — ignoring any state written by others since the read, exactly as
`repository.create` does. -/
def txnStep (t : CreateTxn) : TxnPhase → Coll → TxnPhase × Coll
  | .start, s => (.readDone s, s)
  | .readDone snap, _ =>
      (.done t.record, setEntry snap t.newId (encodeDoc t.record))
  | .done r, s => (.done r, s)

/-- Run two concurrent create calls under a schedule: `true` lets the
first call take its next engine-atomic step, `false` the second.  The
lock guarantees each step is atomic, and nothing more. -/
def runTwo (t1 t2 : CreateTxn) (sched : List Bool) (s : Coll) :
    TxnPhase × TxnPhase × Coll :=
  sched.foldl
    (fun st b =>
      if b then
        let q := txnStep t1 st.1 st.2.2
        (q.1, st.2.1, q.2)
      else
        let q := txnStep t2 st.2.1 st.2.2
        (st.1, q.1, q.2))
    (.start, .start, s)

/-- Concrete sample input used by witnesses. -/
def sampleTs : PyDateTime := ⟨2024, 1, 1, 0, 0, 0⟩

/-- Concrete sample creation input used by witnesses. -/
def sampleTc : TaskCreate :=
  ⟨"Buy Milk", some "2% Fat", some ⟨2025, 1, 1⟩, false⟩

/-- Concrete sample stored record used by witnesses. -/
def sampleRec : TaskRecord :=
  ⟨"t1", "Test Task", some "Test Description", some ⟨2024, 12, 31⟩,
    false, sampleTs⟩

/-- Concrete sample collection holding `sampleRec` under its id. -/
def sampleColl : Coll := [("t1", encodeDoc sampleRec)]

/-- First sample in-flight create call. -/
def txnA : CreateTxn := ⟨"id-1", sampleTs, sampleTc⟩

/-- Second sample in-flight create call, with a distinct minted id. -/
def txnB : CreateTxn := ⟨"id-2", sampleTs, ⟨"Walk Dog", none, none, false⟩⟩

/-! Helper lemmas about the collection primitives. -/

theorem decode_encode (r : TaskRecord) : decodeDoc (encodeDoc r) = .ok r := rfl

theorem encode_not_empty (r : TaskRecord) : (encodeDoc r).isEmpty = false := rfl

theorem lookupC_replaceEntry_self (key : String) (v : StoredDoc) :
    ∀ s : Coll, hasKey s key = true →
      lookupC (replaceEntry s key v) key = some v := by
  intro s
  induction s with
  | nil => intro h; simp [hasKey] at h
  | cons p t ih =>
    intro h
    obtain ⟨k, w⟩ := p
    cases hk : (k == key) with
    | true => simp [replaceEntry, hk, lookupC]
    | false =>
      simp [hasKey, hk] at h
      simp [replaceEntry, hk, lookupC, ih h]

theorem lookupC_append_self (key : String) (v : StoredDoc) :
    ∀ s : Coll, hasKey s key = false →
      lookupC (s ++ [(key, v)]) key = some v := by
  intro s
  induction s with
  | nil => intro _; simp [lookupC]
  | cons p t ih =>
    intro h
    obtain ⟨k, w⟩ := p
    simp [hasKey] at h
    simp [lookupC, h.1, ih h.2]

theorem lookupC_setEntry_self (s : Coll) (key : String) (v : StoredDoc) :
    lookupC (setEntry s key v) key = some v := by
  unfold setEntry
  cases hk : hasKey s key with
  | true => simp [lookupC_replaceEntry_self key v s hk]
  | false => simp [lookupC_append_self key v s hk]

theorem lookupC_replaceEntry_ne (key : String) (v : StoredDoc) (k : String)
    (hne : k ≠ key) :
    ∀ s : Coll, lookupC (replaceEntry s key v) k = lookupC s k := by
  intro s
  induction s with
  | nil => rfl
  | cons p t ih =>
    obtain ⟨k0, w⟩ := p
    cases hk : (k0 == key) with
    | true =>
      have hk0 : k0 = key := by simpa using hk
      have : (k0 == k) = false := by
        simp [hk0]
        exact fun h => hne h.symm
      simp [replaceEntry, hk, lookupC, this, ih]
    | false =>
      cases hkk : (k0 == k) with
      | true => simp [replaceEntry, hk, lookupC, hkk]
      | false => simp [replaceEntry, hk, lookupC, hkk, ih]

theorem lookupC_append_ne (key : String) (v : StoredDoc) (k : String)
    (hne : k ≠ key) :
    ∀ s : Coll, lookupC (s ++ [(key, v)]) k = lookupC s k := by
  intro s
  induction s with
  | nil =>
    have : (key == k) = false := by
      simp
      exact fun h => hne h.symm
    simp [lookupC, this]
  | cons p t ih =>
    obtain ⟨k0, w⟩ := p
    cases hkk : (k0 == k) with
    | true => simp [lookupC, hkk]
    | false => simp [lookupC, hkk, ih]

theorem lookupC_setEntry_ne (s : Coll) (key : String) (v : StoredDoc)
    (k : String) (hne : k ≠ key) :
    lookupC (setEntry s key v) k = lookupC s k := by
  unfold setEntry
  cases hk : hasKey s key with
  | true => simp [lookupC_replaceEntry_ne key v k hne s]
  | false => simp [lookupC_append_ne key v k hne s]

theorem lookupC_eraseEntry_self (key : String) :
    ∀ s : Coll, lookupC (eraseEntry s key) key = none := by
  intro s
  induction s with
  | nil => rfl
  | cons p t ih =>
    obtain ⟨k, w⟩ := p
    cases hk : (k == key) with
    | true => simp [eraseEntry, hk, ih]
    | false => simp [eraseEntry, hk, lookupC, ih]

theorem lookupC_eraseEntry_ne (key k : String) (hne : k ≠ key) :
    ∀ s : Coll, lookupC (eraseEntry s key) k = lookupC s k := by
  intro s
  induction s with
  | nil => rfl
  | cons p t ih =>
    obtain ⟨k0, w⟩ := p
    cases hk : (k0 == key) with
    | true =>
      have hk0 : k0 = key := by simpa using hk
      have : (k0 == k) = false := by
        simp [hk0]
        exact fun h => hne h.symm
      simp [eraseEntry, hk, lookupC, this, ih]
    | false =>
      cases hkk : (k0 == k) with
      | true => simp [eraseEntry, hk, lookupC, hkk]
      | false => simp [eraseEntry, hk, lookupC, hkk, ih]

theorem hasKey_false_of_lookupC_none (key : String) :
    ∀ s : Coll, lookupC s key = none → hasKey s key = false := by
  intro s
  induction s with
  | nil => intro _; rfl
  | cons p t ih =>
    intro h
    obtain ⟨k, w⟩ := p
    cases hk : (k == key) with
    | true => simp [lookupC, hk] at h
    | false =>
      simp [lookupC, hk] at h
      simp [hasKey, hk, ih h]

theorem hasKey_true_of_lookupC_some (key : String) (v : StoredDoc) :
    ∀ s : Coll, lookupC s key = some v → hasKey s key = true := by
  intro s
  induction s with
  | nil => intro h; simp [lookupC] at h
  | cons p t ih =>
    intro h
    obtain ⟨k, w⟩ := p
    cases hk : (k == key) with
    | true => simp [hasKey, hk]
    | false =>
      simp [lookupC, hk] at h
      simp [hasKey, hk, ih h]

theorem lookupC_mem (key : String) (v : StoredDoc) :
    ∀ s : Coll, lookupC s key = some v → (key, v) ∈ s := by
  intro s
  induction s with
  | nil => intro h; simp [lookupC] at h
  | cons p t ih =>
    intro h
    obtain ⟨k, w⟩ := p
    cases hk : (k == key) with
    | true =>
      have hk0 : k = key := by simpa using hk
      simp [lookupC, hk] at h
      simp [hk0, h]
    | false =>
      simp [lookupC, hk] at h
      exact List.mem_cons_of_mem _ (ih h)

theorem keyIdInv_replaceEntry (key : String) (v : StoredDoc)
    (hv : v.id? = some key) :
    ∀ s : Coll, KeyIdInv s → KeyIdInv (replaceEntry s key v) := by
  intro s
  induction s with
  | nil => intro _; intro p hp; simp [replaceEntry] at hp
  | cons q t ih =>
    intro hInv
    obtain ⟨k, w⟩ := q
    have hInvT : KeyIdInv t := fun p hp => hInv p (List.mem_cons_of_mem _ hp)
    cases hk : (k == key) with
    | true =>
      have hk0 : k = key := by simpa using hk
      intro p hp
      simp [replaceEntry, hk] at hp
      rcases hp with hp | hp
      · subst hp; simpa [hk0] using hv
      · exact ih hInvT p hp
    | false =>
      intro p hp
      simp [replaceEntry, hk] at hp
      rcases hp with hp | hp
      · subst hp; exact hInv (k, w) (List.mem_cons_self _ _)
      · exact ih hInvT p hp

theorem keyIdInv_setEntry (s : Coll) (key : String) (v : StoredDoc)
    (hInv : KeyIdInv s) (hv : v.id? = some key) :
    KeyIdInv (setEntry s key v) := by
  unfold setEntry
  cases hk : hasKey s key with
  | true => simpa using keyIdInv_replaceEntry key v hv s hInv
  | false =>
    intro p hp
    simp at hp
    rcases hp with hp | hp
    · exact hInv p hp
    · subst hp; simpa using hv

theorem keyIdInv_eraseEntry (key : String) :
    ∀ s : Coll, KeyIdInv s → KeyIdInv (eraseEntry s key) := by
  intro s
  induction s with
  | nil => intro _; intro p hp; simp [eraseEntry] at hp
  | cons q t ih =>
    intro hInv
    obtain ⟨k, w⟩ := q
    have hInvT : KeyIdInv t := fun p hp => hInv p (List.mem_cons_of_mem _ hp)
    cases hk : (k == key) with
    | true => simpa [eraseEntry, hk] using ih hInvT
    | false =>
      intro p hp
      simp [eraseEntry, hk] at hp
      rcases hp with hp | hp
      · subst hp; exact hInv (k, w) (List.mem_cons_self _ _)
      · exact ih hInvT p hp

theorem decodeDoc_id (d : StoredDoc) (r : TaskRecord)
    (h : decodeDoc d = .ok r) : d.id? = some r.id := by
  unfold decodeDoc at h
  cases hi : d.id? with
  | none => simp [hi] at h
  | some i =>
    cases ht : d.title? with
    | none => simp [hi, ht] at h
    | some t =>
      cases hc : d.createdAt? with
      | none => simp [hi, ht, hc] at h
      | some c =>
        simp [hi, ht, hc] at h
        rw [← h]

/-! Claim theorems. -/

/-- C1: Merge law — for every record `r` stored (decodable) in the
collection under `taskId` and every partial update `u`,
`TaskRepository.update` returns and persists exactly `r` with only the
explicitly set fields of `u` overwritten; `id` and `createdAt` (and
every unset field) are unchanged, the merged record is what is persisted
under the key, it decodes back to itself, and every other key of the
collection is untouched. -/
theorem update_merge_law (s : Coll) (taskId : String) (d : StoredDoc)
    (r : TaskRecord) (u : TaskUpdate)
    (hl : lookupC s taskId = some d) (hd : decodeDoc d = .ok r) :
    TaskRepository.update s taskId u =
      .ok ⟨some (r.applyUpdate u),
           setEntry s taskId (encodeDoc (r.applyUpdate u)), true⟩ ∧
    (r.applyUpdate u).id = r.id ∧
    (r.applyUpdate u).createdAt = r.createdAt ∧
    (r.applyUpdate u).title = u.title?.getD r.title ∧
    (r.applyUpdate u).description = u.description?.getD r.description ∧
    (r.applyUpdate u).dueDate = u.dueDate?.getD r.dueDate ∧
    (r.applyUpdate u).isCompleted = u.isCompleted?.getD r.isCompleted ∧
    decodeDoc (encodeDoc (r.applyUpdate u)) = .ok (r.applyUpdate u) ∧
    lookupC (setEntry s taskId (encodeDoc (r.applyUpdate u))) taskId =
      some (encodeDoc (r.applyUpdate u)) ∧
    (∀ k, k ≠ taskId →
      lookupC (setEntry s taskId (encodeDoc (r.applyUpdate u))) k =
        lookupC s k) := by
  refine ⟨?_, rfl, rfl, rfl, rfl, rfl, rfl, decode_encode _,
    lookupC_setEntry_self s taskId _, ?_⟩
  · unfold TaskRepository.update
    rw [hl]
    simp [hd]
  · intro k hk
    exact lookupC_setEntry_ne s taskId _ k hk

/-- Witness for C1 at a concrete stored record and a concrete partial
update setting only `title` and `isCompleted`. -/
theorem update_merge_law_witness :
    lookupC sampleColl "t1" = some (encodeDoc sampleRec) ∧
    decodeDoc (encodeDoc sampleRec) = .ok sampleRec ∧
    TaskRepository.update sampleColl "t1"
        ⟨some "Updated Title", none, none, some true⟩ =
      .ok ⟨some (sampleRec.applyUpdate
              ⟨some "Updated Title", none, none, some true⟩),
           setEntry sampleColl "t1"
             (encodeDoc (sampleRec.applyUpdate
               ⟨some "Updated Title", none, none, some true⟩)), true⟩ :=
  ⟨by decide, rfl,
    (update_merge_law sampleColl "t1" (encodeDoc sampleRec) sampleRec
      ⟨some "Updated Title", none, none, some true⟩ (by decide) rfl).1⟩

/-- C4: the partial-update representation distinguishes an absent
`description` key from an explicit null: updating with
`clearDescription` clears the stored description while updating with
`noFields` leaves it unchanged, and the two merged records differ
whenever the existing description is present. -/
theorem update_unset_vs_null (s : Coll) (taskId : String) (d : StoredDoc)
    (r : TaskRecord) (ds : String)
    (hl : lookupC s taskId = some d) (hd : decodeDoc d = .ok r)
    (hdesc : r.description = some ds) :
    TaskRepository.update s taskId clearDescription =
      .ok ⟨some (r.applyUpdate clearDescription),
           setEntry s taskId (encodeDoc (r.applyUpdate clearDescription)),
           true⟩ ∧
    (r.applyUpdate clearDescription).description = none ∧
    (encodeDoc (r.applyUpdate clearDescription)).description? = some none ∧
    TaskRepository.update s taskId noFields =
      .ok ⟨some (r.applyUpdate noFields),
           setEntry s taskId (encodeDoc (r.applyUpdate noFields)), true⟩ ∧
    (r.applyUpdate noFields).description = some ds ∧
    r.applyUpdate clearDescription ≠ r.applyUpdate noFields := by
  refine ⟨?_, rfl, rfl, ?_, ?_, ?_⟩
  · unfold TaskRepository.update
    rw [hl]
    simp [hd]
  · unfold TaskRepository.update
    rw [hl]
    simp [hd]
  · show r.description = some ds
    exact hdesc
  · intro hcontra
    have hfield := congrArg TaskRecord.description hcontra
    have h1 : (r.applyUpdate clearDescription).description = none := rfl
    have h2 : (r.applyUpdate noFields).description = r.description := rfl
    rw [h1, h2, hdesc] at hfield
    exact Option.noConfusion hfield

/-- Witness for C4 at a concrete stored record whose description is
present. -/
theorem update_unset_vs_null_witness :
    lookupC sampleColl "t1" = some (encodeDoc sampleRec) ∧
    decodeDoc (encodeDoc sampleRec) = .ok sampleRec ∧
    sampleRec.description = some "Test Description" ∧
    sampleRec.applyUpdate clearDescription ≠ sampleRec.applyUpdate noFields :=
  ⟨by decide, rfl, rfl,
    (update_unset_vs_null sampleColl "t1" (encodeDoc sampleRec) sampleRec
      "Test Description" (by decide) rfl rfl).2.2.2.2.2⟩

/-- C5: round-trip — for every collection, creation input and minted
id/timestamp, `create` followed by `get_by_id` on the new id yields
exactly the created record, across the encode-to-JSON-object and
decode-back mapping. -/
theorem create_get_by_id_roundtrip (s : Coll) (newId : String)
    (ts : PyDateTime) (tc : TaskCreate) :
    TaskRepository.get_by_id (TaskRepository.create s newId ts tc).st newId =
      .ok (some (TaskRepository.create s newId ts tc).ret) := by
  unfold TaskRepository.get_by_id
  rw [show lookupC (TaskRepository.create s newId ts tc).st newId =
        some (encodeDoc (TaskRepository.create s newId ts tc).ret) from
      lookupC_setEntry_self s newId _]
  simp [encode_not_empty, decode_encode, Except.map]

/-- C6: for an id that is not a key of the persisted collection,
`get_by_id` reports absent, `update` returns absent, `delete` returns
false, and neither `update` nor `delete` invokes a storage-engine write
(the persisted collection is unchanged). -/
theorem missing_id_noop (s : Coll) (taskId : String)
    (h : lookupC s taskId = none) :
    TaskRepository.get_by_id s taskId = .ok none ∧
    (∀ u, TaskRepository.update s taskId u = .ok ⟨none, s, false⟩) ∧
    TaskRepository.delete s taskId = ⟨false, s, false⟩ := by
  refine ⟨?_, ?_, ?_⟩
  · unfold TaskRepository.get_by_id
    rw [h]
  · intro u
    unfold TaskRepository.update
    rw [h]
  · unfold TaskRepository.delete
    rw [hasKey_false_of_lookupC_none taskId s h]
    rfl

/-- Witness for C6 at an id absent from the sample collection. -/
theorem missing_id_noop_witness :
    lookupC sampleColl "missing-id" = none ∧
    TaskRepository.get_by_id sampleColl "missing-id" = .ok none ∧
    TaskRepository.delete sampleColl "missing-id" =
      ⟨false, sampleColl, false⟩ :=
  ⟨by decide,
    (missing_id_noop sampleColl "missing-id" (by decide)).1,
    (missing_id_noop sampleColl "missing-id" (by decide)).2.2⟩

/-- C10: frame property of delete — on an id present in the collection,
`delete` returns true, persists the collection with the entry under that
key removed, and every other key still maps to exactly its previous
entry. -/
theorem delete_frame (s : Coll) (taskId : String) (d : StoredDoc)
    (h : lookupC s taskId = some d) :
    TaskRepository.delete s taskId = ⟨true, eraseEntry s taskId, true⟩ ∧
    lookupC (eraseEntry s taskId) taskId = none ∧
    (∀ k, k ≠ taskId →
      lookupC (eraseEntry s taskId) k = lookupC s k) := by
  refine ⟨?_, lookupC_eraseEntry_self taskId s, ?_⟩
  · unfold TaskRepository.delete
    rw [hasKey_true_of_lookupC_some taskId d s h]
    rfl
  · intro k hk
    exact lookupC_eraseEntry_ne taskId k hk s

/-- Witness for C10 at the sample collection's only key. -/
theorem delete_frame_witness :
    lookupC sampleColl "t1" = some (encodeDoc sampleRec) ∧
    TaskRepository.delete sampleColl "t1" =
      ⟨true, eraseEntry sampleColl "t1", true⟩ :=
  ⟨by decide,
    (delete_frame sampleColl "t1" (encodeDoc sampleRec) (by decide)).1⟩

/-- Stepping a create call through both of its engine-atomic steps with
no interference is exactly `TaskRepository.create`: the two-step
decomposition at the lock boundary is faithful. -/
theorem txn_two_steps_eq_create (t : CreateTxn) (s : Coll) :
    txnStep t (txnStep t .start s).1 (txnStep t .start s).2 =
      (.done (TaskRepository.create s t.newId t.ts t.tc).ret,
        (TaskRepository.create s t.newId t.ts t.tc).st) := rfl

/-- C2: two concurrent `create` calls with distinct minted ids, run
under the interleaving read-1, read-2, write-1, write-2 (each step is
one engine-atomic operation, exactly what the mutual-exclusion gate
guarantees), both complete, yet the final collection holds a single
record — the first create's entry is lost, so `get_all` returns 1
record, not 2.  The same two calls run back to back keep both
entries. -/
theorem concurrent_create_lost_update :
    txnA.newId ≠ txnB.newId ∧
    runTwo txnA txnB [true, false, true, false] [] =
      (.done txnA.record, .done txnB.record,
        [(txnB.newId, encodeDoc txnB.record)]) ∧
    TaskRepository.get_all
        (runTwo txnA txnB [true, false, true, false] []).2.2 =
      .ok [txnB.record] ∧
    TaskRepository.get_all
        (runTwo txnA txnB [true, true, false, false] []).2.2 =
      .ok [txnA.record, txnB.record] := by
  refine ⟨by decide, by decide, rfl, rfl⟩

/-- C3: for every collection, minted id, timestamp and creation input,
the service's `create_task` builds the full record from the input plus
the two system fields, persists it via the repository's `save` keyed by
the new id, and returns exactly that record. -/
theorem create_task_builds_and_persists (s : Coll) (newId : String)
    (ts : PyDateTime) (tc : TaskCreate) :
    TaskService.create_task s newId ts tc =
      TaskRepository.save s
        ⟨newId, tc.title, tc.description, tc.dueDate, tc.isCompleted, ts⟩ ∧
    TaskService.create_task s newId ts tc =
      ⟨⟨newId, tc.title, tc.description, tc.dueDate, tc.isCompleted, ts⟩,
        setEntry s newId
          (encodeDoc
            ⟨newId, tc.title, tc.description, tc.dueDate,
              tc.isCompleted, ts⟩), true⟩ ∧
    lookupC (TaskService.create_task s newId ts tc).st newId =
      some (encodeDoc (TaskService.create_task s newId ts tc).ret) :=
  ⟨rfl, rfl, lookupC_setEntry_self s newId _⟩

/-- C7 counterexample: the empty stored object `{}` cannot be decoded
into a record, yet `get_by_id` reports it as absent — exactly the result
a missing id produces — because of the Python truthiness check
`if item`; the claimed internal error is not surfaced. -/
theorem empty_doc_conflated_with_absent :
    decodeDoc StoredDoc.emptyDoc = .error (.missingField "id") ∧
    lookupC [("t1", StoredDoc.emptyDoc)] "t1" = some StoredDoc.emptyDoc ∧
    TaskRepository.get_by_id [("t1", StoredDoc.emptyDoc)] "t1" = .ok none ∧
    TaskRepository.get_by_id [("t1", StoredDoc.emptyDoc)] "never-created" =
      .ok none := by
  refine ⟨rfl, by decide, rfl, rfl⟩

/-- C7 (amended): for every stored entry that is not the empty object
and fails to decode, `get_by_id` surfaces the decode error itself,
never the absent result a missing id produces. -/
theorem nonempty_decode_error_surfaced (s : Coll) (taskId : String)
    (d : StoredDoc) (e : DecodeErr) (hl : lookupC s taskId = some d)
    (hne : d.isEmpty = false) (hd : decodeDoc d = .error e) :
    TaskRepository.get_by_id s taskId = .error e ∧
    TaskRepository.get_by_id s taskId ≠ .ok none := by
  have h1 : TaskRepository.get_by_id s taskId = .error e := by
    unfold TaskRepository.get_by_id
    rw [hl]
    simp [hne, hd, Except.map]
  exact ⟨h1, by rw [h1]; exact fun hc => Except.noConfusion hc⟩

/-- Witness for the amended C7 at a stored object holding only an id
(truthy, but missing the required title). -/
theorem nonempty_decode_error_surfaced_witness :
    lookupC [("t1", (⟨some "t1", none, none, none, none, none⟩ : StoredDoc))]
        "t1" =
      some (⟨some "t1", none, none, none, none, none⟩ : StoredDoc) ∧
    (⟨some "t1", none, none, none, none, none⟩ : StoredDoc).isEmpty =
      false ∧
    decodeDoc (⟨some "t1", none, none, none, none, none⟩ : StoredDoc) =
      .error (.missingField "title") ∧
    TaskRepository.get_by_id
        [("t1", (⟨some "t1", none, none, none, none, none⟩ : StoredDoc))]
        "t1" =
      .error (.missingField "title") :=
  ⟨by decide, rfl, rfl,
    (nonempty_decode_error_surfaced
      [("t1", (⟨some "t1", none, none, none, none, none⟩ : StoredDoc))]
      "t1" (⟨some "t1", none, none, none, none, none⟩ : StoredDoc)
      (.missingField "title") (by decide) rfl rfl).1⟩

/-- C8: a title that is empty after trimming or longer than 100
characters after trimming is rejected by the pydantic model construction
for both creation and update inputs, before any value can reach the
service or repository — so the core never stores it. -/
theorem invalid_title_rejected (title : String) (de : Option String)
    (dd : Option PyDate) (co : Bool) (de2 : Option (Option String))
    (dd2 : Option (Option PyDate)) (co2 : Option Bool)
    (h : pyStrip title = "" ∨ 100 < (pyStrip title).length) :
    mkTaskCreate title de dd co = none ∧
    mkTaskUpdate (some title) de2 dd2 co2 = none := by
  have hv : validTitle title = false := by
    unfold validTitle
    rcases h with h | h
    · rw [h]
      rfl
    · have hgt : ¬ ((pyStrip title).length ≤ 100) := by omega
      simp [hgt]
  constructor
  · unfold mkTaskCreate
    simp [hv]
  · unfold mkTaskUpdate
    simp [hv]

/-- Witness for C8 at the empty title and at a 101-character title. -/
theorem invalid_title_rejected_witness :
    (pyStrip "" = "" ∨ 100 < (pyStrip "").length) ∧
    mkTaskCreate "" (some "d") none false = none ∧
    mkTaskUpdate (some "") none none none = none :=
  ⟨Or.inl (by decide),
    (invalid_title_rejected "" (some "d") none false none none none
      (Or.inl (by decide))).1,
    (invalid_title_rejected "" (some "d") none false none none none
      (Or.inl (by decide))).2⟩

/-- C9: the key-equals-id invariant is preserved by every persisting
operation — starting from a collection in which every key equals the
stored object's `id` field, the collections persisted by `create`,
`update` and `delete` satisfy the same invariant. -/
theorem key_id_invariant_preserved (s : Coll) (hInv : KeyIdInv s) :
    (∀ newId ts tc, KeyIdInv (TaskRepository.create s newId ts tc).st) ∧
    (∀ taskId u res, TaskRepository.update s taskId u = .ok res →
      KeyIdInv res.st) ∧
    (∀ taskId, KeyIdInv (TaskRepository.delete s taskId).st) := by
  refine ⟨?_, ?_, ?_⟩
  · intro newId ts tc
    exact keyIdInv_setEntry s newId _ hInv rfl
  · intro taskId u res hres
    unfold TaskRepository.update at hres
    cases hl : lookupC s taskId with
    | none =>
      rw [hl] at hres
      simp at hres
      rw [← hres]
      exact hInv
    | some d =>
      rw [hl] at hres
      cases hd : decodeDoc d with
      | error e => simp [hd] at hres
      | ok r =>
        simp [hd] at hres
        have hkey : r.id = taskId := by
          have hmem := lookupC_mem taskId d s hl
          have hid := hInv (taskId, d) hmem
          have hid2 := decodeDoc_id d r hd
          rw [hid] at hid2
          exact (Option.some_inj.mp hid2).symm
        rw [← hres]
        refine keyIdInv_setEntry s taskId _ hInv ?_

        show some (r.applyUpdate u).id = some taskId
        rw [show (r.applyUpdate u).id = r.id from rfl, hkey]
  · intro taskId
    unfold TaskRepository.delete
    cases hk : hasKey s taskId with
    | true => simpa using keyIdInv_eraseEntry taskId s hInv
    | false => simpa using hInv

/-- Witness for C9: the sample collection satisfies the invariant, and
so does the collection persisted by a create against it. -/
theorem key_id_invariant_preserved_witness :
    KeyIdInv sampleColl ∧
    KeyIdInv (TaskRepository.create sampleColl "id-9" sampleTs sampleTc).st :=
  ⟨by unfold KeyIdInv; decide,
    (key_id_invariant_preserved sampleColl (by unfold KeyIdInv; decide)).1
      "id-9" sampleTs sampleTc⟩

end SoDot
